import Mathlib

/-!
Verification of the reconciliation core of the `googledriveclient` repository
(`main.go`): a shallow embedding in Lean 4 of the folder index, the path
resolver, the inventory cache (de)serialization, the cache/populate phase of
`main`, and the reconcile/fetch loop, together with theorems settling the
specification's claims about them.

Conventions of the embedding:
* Go slices that the program distinguishes from `nil` are `Option (List _)`
  (`none` is the nil slice, `some []` a present-but-empty one).
* The Go map built by `remoteFolders` is a lookup function
  `String → Option DriveFile` grown by later-wins updates, exactly the
  assignment order of the source loop.
* The possibly non-terminating `remotePath` loop is run on explicit fuel:
  `none` means the fuel ran out (models divergence), `some` a finished loop.
* A Go runtime panic (the `f.Parents[0]` index on an empty slice) and a
  `log.Fatalf` are explicit failure values, never silently dropped.
-/

/-- The subset of the `drive.File` record the program reads (the `Fields`
call requests exactly `id, name, md5Checksum, mimeType, parents`).
`Parents` is `none` when the Go slice is nil and `some l` when it is a
present slice `l`; `main.go` branches on exactly that distinction
(`f.Parents != nil`). -/
structure DriveFile where
  Id : String
  Name : String
  Md5Checksum : String
  MimeType : String
  Parents : Option (List String)
deriving DecidableEq, Repr

/-- `localFile` of main.go: a relative path and its md5 digest. -/
structure localFile where
  Path : String
  Md5Checksum : String
deriving DecidableEq, Repr

/-- `Files` of main.go: the persisted inventory snapshot, one remote half
and one local half. -/
structure Files where
  Remote : List DriveFile
  Local : List localFile
deriving DecidableEq, Repr

/-- The mime type the source compares against to recognize folders. -/
def folderMime : String := "application/vnd.google-apps.folder"

/-- `remoteFolders` of main.go: fold the remote listing into a Go map
keyed by `File.Id`, inserting every record whose mime type is the folder
mime type; a later record with the same id overwrites an earlier one,
exactly as Go map assignment does. The map is embedded as its lookup
function. -/
def remoteFolders (remote : List DriveFile) : String → Option DriveFile :=
  remote.foldl
    (fun folders file =>
      if file.MimeType = folderMime then
        fun id => if id = file.Id then some file else folders id
      else folders)
    (fun _ => none)

/-- Outcome of one full run of the `remotePath` loop: a normal return with
the built path, or the Go runtime panic raised by `f.Parents[0]` when
`Parents` is a present-but-empty slice. -/
inductive PathOutcome where
  | ok (path : String)
  | crash
deriving DecidableEq, Repr

/-- The loop of `remotePath` in main.go, run on fuel. Each iteration first
prepends `"/" + f.Name` to the accumulated path; then, if `f.Parents` is
nil the loop ends with the path, if it is present the code indexes
`f.Parents[0]` (panicking on a present-but-empty slice) and looks the id up
in the folder map, continuing on a hit and ending with the path on a miss.
`none` means the fuel was exhausted before the loop ended. -/
def remotePathLoop (folders : String → Option DriveFile) :
    Nat → DriveFile → String → Option PathOutcome
  | 0, _, _ => none
  | fuel + 1, f, path =>
    let path2 := "/" ++ f.Name ++ path
    match f.Parents with
    | none => some (PathOutcome.ok path2)
    | some [] => some PathOutcome.crash
    | some (p :: _) =>
      match folders p with
      | some d => remotePathLoop folders fuel d path2
      | none => some (PathOutcome.ok path2)

/-- `remotePath` of main.go: the loop started on the file itself with the
empty accumulated path. -/
def remotePath (folders : String → Option DriveFile) (fuel : Nat)
    (file : DriveFile) : Option PathOutcome :=
  remotePathLoop folders fuel file ""

/-- The successor step of the `remotePath` walk: the folder record the loop
moves to from `f`, when it moves at all (a nil or empty `Parents`, or a
first parent absent from the index, ends the loop). -/
def nextRec (folders : String → Option DriveFile) (f : DriveFile) :
    Option DriveFile :=
  match f.Parents with
  | some (p :: _) => folders p
  | _ => none

/-- The records the `remotePath` loop visits, in visit order (the file
first, the outermost resolved ancestor last), on the same fuel as
`remotePathLoop`; only the name of each visited record enters the path, so
the names are recorded. `none` when the fuel runs out or the loop panics. -/
def visitNames (folders : String → Option DriveFile) :
    Nat → DriveFile → Option (List String)
  | 0, _ => none
  | fuel + 1, f =>
    match f.Parents with
    | none => some [f.Name]
    | some [] => none
    | some (p :: _) =>
      match folders p with
      | some d => (visitNames folders fuel d).map (f.Name :: ·)
      | none => some [f.Name]

/-- The path a visit list denotes: `"/" ++ name` segments concatenated from
the outermost resolved ancestor (last visited) down to the file itself
(first visited). -/
def pathOfNames : List String → String
  | [] => ""
  | nm :: rest => pathOfNames rest ++ ("/" ++ nm)

/-- The mapping the spec's §4.1 describes, written from its words: of the
remote listing keep exactly the records whose kind is FOLDER, and key them
by id (with duplicate ids, Go map assignment keeps the last, hence the
lookup in the reversed filtered list). Compared against `remoteFolders`. -/
def folderIndexSpec (remote : List DriveFile) (id : String) :
    Option DriveFile :=
  ((remote.filter (fun f => f.MimeType == folderMime)).reverse).find?
    (fun f => f.Id == id)

/-- The nil test of `localByMd5[md5] == nil` in main.go: the map built from
the local half has an entry for `md5` exactly when some local record
carries that checksum (the value stored is irrelevant there, only nil-ness
is tested). -/
def localByMd5Has (ls : List localFile) (md5 : String) : Bool :=
  ls.any (fun l => l.Md5Checksum == md5)

/-- The reconcile/fetch loop of main.go, reduced to the ids it downloads:
walk the remote listing in order; skip records with an empty checksum; skip
records whose checksum some local record shares; on the first record that
is missing locally, download it and `break` out of the loop. The returned
list is the ids handed to the download call, in order. -/
def downloadTargets (ls : List localFile) : List DriveFile → List String
  | [] => []
  | r :: rest =>
    if r.Md5Checksum ≠ "" then
      if localByMd5Has ls r.Md5Checksum then downloadTargets ls rest
      else [r.Id]
    else downloadTargets ls rest

/-- Modelled from the spec: §4.4's `findMissing`, reduced to ids — every
remote record with a non-empty checksum absent from the local checksum set,
in listing order, none skipped. Compared against `downloadTargets`. -/
def missingIdsSpec (ls : List localFile) (remote : List DriveFile) :
    List String :=
  (remote.filter
    (fun r => r.Md5Checksum != "" && !(localByMd5Has ls r.Md5Checksum))).map
    (fun r => r.Id)

/-- Result of the cache/populate phase of `main` (lines 250–258): the
snapshot after the two emptiness checks, and whether each half was
(re)populated from its expensive source (`remote(srv)` / `local(basePath)`). -/
structure RunResult where
  files : Files
  remoteFetched : Bool
  localScanned : Bool
deriving DecidableEq, Repr

/-- The cache/populate phase of `main`: fill the remote half from the
remote listing exactly when the loaded remote half has length 0, then fill
the local half from the scan exactly when the (unchanged) local half has
length 0, as the two `if len(...) == 0` statements do. -/
def populate (files0 : Files) (remoteSrc : List DriveFile)
    (localSrc : List localFile) : RunResult :=
  let remoteFetched := files0.Remote.length == 0
  let files1 :=
    if files0.Remote.length == 0 then { files0 with Remote := remoteSrc }
    else files0
  let localScanned := files1.Local.length == 0
  let files2 :=
    if files1.Local.length == 0 then { files1 with Local := localSrc }
    else files1
  { files := files2, remoteFetched := remoteFetched,
    localScanned := localScanned }

/-- A directory tree for the fetch write, as the set of directories that
exist; a path is its list of segments. -/
def dirExists (dirs : List (List String)) (d : List String) : Bool :=
  dirs.contains d

/-- Modelled from the spec: `os.Create` (standard library, outside src)
succeeds exactly when the parent directory of the target path exists; it
never creates a directory itself. -/
def osCreateOk (dirs : List (List String)) (path : List String) : Bool :=
  dirExists dirs path.dropLast

/-- The write of the fetch step in main.go: `filepath.Join(basePath, path)`
(segment concatenation) followed directly by `os.Create`; `main` calls no
`MkdirAll` for this path, so success is exactly `os.Create`'s. -/
def fetchWriteOk (dirs : List (List String)) (base rel : List String) :
    Bool :=
  osCreateOk dirs (base ++ rel)

/-- The fragment of JSON the persisted snapshot schema uses: null, strings,
arrays and objects (an object keeps its fields in order; Go's decoder
processes them in order, a later duplicate key overwriting an earlier
one). -/
inductive Json where
  | null
  | str (s : String)
  | arr (elems : List Json)
  | obj (fields : List (String × Json))

/-- The zero value of `drive.File` restricted to the five used fields:
empty strings and a nil `Parents` slice. -/
def zeroDriveFile : DriveFile :=
  { Id := "", Name := "", Md5Checksum := "", MimeType := "", Parents := none }

/-- Modelled from the spec (the `drive.File` declaration lives in the
external drive-v3 package): Go `json.Unmarshal` of a JSON value into a
string field — `null` leaves the field as it was, a string sets it, any
other value is an unmarshal type error. Outer `none` is the error; inner
`none` means keep the old value. -/
def jsonToStr : Json → Option (Option String)
  | Json.null => some none
  | Json.str s => some (some s)
  | _ => none

/-- Go `json.Unmarshal` of a JSON array of strings into a `[]string`:
every element must be a string. -/
def decodeStrList : List Json → Option (List String)
  | [] => some []
  | Json.str s :: rest => (decodeStrList rest).map (s :: ·)
  | _ :: _ => none

/-- Go `json.Unmarshal` of a JSON value into a `[]string` field: `null`
leaves the nil slice, an array of strings yields a present (non-nil)
slice — even when empty — and anything else is a type error. -/
def jsonToStrList : Json → Option (Option (List String))
  | Json.null => some none
  | Json.arr es => (decodeStrList es).map some
  | _ => none

/-- One field of a JSON object applied to a `drive.File` being decoded:
the five tagged keys set their fields, unknown keys are ignored. -/
def setFileField (acc : DriveFile) (k : String) (v : Json) :
    Option DriveFile :=
  if k = "id" then
    (jsonToStr v).map (fun o =>
      match o with | some s => { acc with Id := s } | none => acc)
  else if k = "name" then
    (jsonToStr v).map (fun o =>
      match o with | some s => { acc with Name := s } | none => acc)
  else if k = "md5Checksum" then
    (jsonToStr v).map (fun o =>
      match o with | some s => { acc with Md5Checksum := s } | none => acc)
  else if k = "mimeType" then
    (jsonToStr v).map (fun o =>
      match o with | some s => { acc with MimeType := s } | none => acc)
  else if k = "parents" then
    (jsonToStrList v).map (fun o =>
      match o with | some l => { acc with Parents := some l } | none => acc)
  else some acc

/-- Decode the field list of a JSON object into a `drive.File`, starting
from the given accumulator (the zero value at the top), fields processed in
order. -/
def decodeFileLoop : DriveFile → List (String × Json) → Option DriveFile
  | acc, [] => some acc
  | acc, (k, v) :: rest =>
    match setFileField acc k v with
    | some acc2 => decodeFileLoop acc2 rest
    | none => none

/-- Go `json.Unmarshal` of one JSON value into a `drive.File`: an object is
decoded field by field, `null` leaves the zero value, anything else is a
type error. -/
def decodeDriveFile : Json → Option DriveFile
  | Json.obj fs => decodeFileLoop zeroDriveFile fs
  | Json.null => some zeroDriveFile
  | _ => none

/-- The zero value of `localFile`. -/
def zeroLocalFile : localFile := { Path := "", Md5Checksum := "" }

/-- One field of a JSON object applied to a `localFile` being decoded
(`localFile` carries no tags, so the keys are the exported Go names). -/
def setLocalField (acc : localFile) (k : String) (v : Json) :
    Option localFile :=
  if k = "Path" then
    (jsonToStr v).map (fun o =>
      match o with | some s => { acc with Path := s } | none => acc)
  else if k = "Md5Checksum" then
    (jsonToStr v).map (fun o =>
      match o with | some s => { acc with Md5Checksum := s } | none => acc)
  else some acc

/-- Decode the field list of a JSON object into a `localFile`. -/
def decodeLocalLoop : localFile → List (String × Json) → Option localFile
  | acc, [] => some acc
  | acc, (k, v) :: rest =>
    match setLocalField acc k v with
    | some acc2 => decodeLocalLoop acc2 rest
    | none => none

/-- Go `json.Unmarshal` of one JSON value into a `localFile`. -/
def decodeLocalFile : Json → Option localFile
  | Json.obj fs => decodeLocalLoop zeroLocalFile fs
  | Json.null => some zeroLocalFile
  | _ => none

/-- Decode a JSON array of `drive.File` objects. -/
def decodeFileList : List Json → Option (List DriveFile)
  | [] => some []
  | j :: rest =>
    match decodeDriveFile j with
    | some f => (decodeFileList rest).map (f :: ·)
    | none => none

/-- Decode a JSON array of `localFile` objects. -/
def decodeLocalList : List Json → Option (List localFile)
  | [] => some []
  | j :: rest =>
    match decodeLocalFile j with
    | some f => (decodeLocalList rest).map (f :: ·)
    | none => none

/-- Go `json.Unmarshal` of a JSON value into the `Remote` slice: `null`
keeps the nil slice, an array decodes element-wise, anything else is a
type error. -/
def jsonToRemote : Json → Option (Option (List DriveFile))
  | Json.null => some none
  | Json.arr es => (decodeFileList es).map some
  | _ => none

/-- Go `json.Unmarshal` of a JSON value into the `Local` slice. -/
def jsonToLocal : Json → Option (Option (List localFile))
  | Json.null => some none
  | Json.arr es => (decodeLocalList es).map some
  | _ => none

/-- One field of the top-level JSON object applied to a `Files` being
decoded (`Files` carries no tags: the keys are `Remote` and `Local`). -/
def setFilesField (acc : Files) (k : String) (v : Json) : Option Files :=
  if k = "Remote" then
    (jsonToRemote v).map (fun o =>
      match o with | some l => { acc with Remote := l } | none => acc)
  else if k = "Local" then
    (jsonToLocal v).map (fun o =>
      match o with | some l => { acc with Local := l } | none => acc)
  else some acc

/-- Decode the field list of the top-level JSON object into a `Files`. -/
def decodeFilesLoop : Files → List (String × Json) → Option Files
  | acc, [] => some acc
  | acc, (k, v) :: rest =>
    match setFilesField acc k v with
    | some acc2 => decodeFilesLoop acc2 rest
    | none => none

/-- Go `json.Unmarshal` of the whole persisted document into `Files`
(`var files Files` starts from the zero value: two empty halves). -/
def decodeFiles : Json → Option Files
  | Json.obj fs => decodeFilesLoop { Remote := [], Local := [] } fs
  | Json.null => some { Remote := [], Local := [] }
  | _ => none

/-- Modelled from the spec (the `drive.File` declaration lives in the
external drive-v3 package, every one of its fields tagged `omitempty`):
Go `json.Marshal` of a `drive.File` emits each of the five used fields
unless it holds its zero value — an empty string, or a nil or empty
`Parents` slice, is omitted. -/
def encodeDriveFile (f : DriveFile) : Json :=
  Json.obj
    ((if f.Id = "" then [] else [("id", Json.str f.Id)]) ++
     (if f.Md5Checksum = "" then []
      else [("md5Checksum", Json.str f.Md5Checksum)]) ++
     (if f.MimeType = "" then [] else [("mimeType", Json.str f.MimeType)]) ++
     (if f.Name = "" then [] else [("name", Json.str f.Name)]) ++
     (match f.Parents with
      | none => []
      | some [] => []
      | some ps => [("parents", Json.arr (ps.map Json.str))]))

/-- Go `json.Marshal` of a `localFile`: no tags, both fields always
emitted under their exported names. -/
def encodeLocalFile (l : localFile) : Json :=
  Json.obj [("Path", Json.str l.Path), ("Md5Checksum", Json.str l.Md5Checksum)]

/-- `writeFilesJson` of main.go, as the JSON document it writes:
`json.MarshalIndent` of the `Files` value (indentation does not affect the
value). -/
def writeFilesJson (files : Files) : Json :=
  Json.obj
    [("Remote", Json.arr (files.Remote.map encodeDriveFile)),
     ("Local", Json.arr (files.Local.map encodeLocalFile))]

/-- The states the persisted `files.json` can be in when a run starts:
absent (`os.Stat` fails), present but not valid JSON text, or present with
a JSON document. -/
inductive CacheFile where
  | absent
  | invalid
  | valid (j : Json)

/-- `readFilesJson` of main.go: an absent file yields the zero `Files`
(two empty halves, not an error); a present file is unmarshalled, and any
unmarshal failure — invalid JSON text or a document that does not fit the
schema — hits `log.Fatalf`, i.e. the run dies (`none`). -/
def readFilesJson : CacheFile → Option Files
  | CacheFile.absent => some { Remote := [], Local := [] }
  | CacheFile.invalid => none
  | CacheFile.valid j => decodeFiles j

/-- Load followed by the populate phase: the run outcome of `main`'s cache
handling, `none` when the load is fatal. -/
def runPopulate (cache : CacheFile) (remoteSrc : List DriveFile)
    (localSrc : List localFile) : Option RunResult :=
  (readFilesJson cache).map (fun fs => populate fs remoteSrc localSrc)

/-- The root folder of the spec's three-level example: name `root`, no
parent. -/
def recR : DriveFile :=
  { Id := "R", Name := "root", Md5Checksum := "", MimeType := folderMime,
    Parents := none }

/-- The middle folder of the three-level example: name `sub`, parent `R`. -/
def recC : DriveFile :=
  { Id := "C", Name := "sub", Md5Checksum := "", MimeType := folderMime,
    Parents := some ["R"] }

/-- The file of the three-level example: name `doc.txt`, parent `C`. -/
def wFile : DriveFile :=
  { Id := "F", Name := "doc.txt", Md5Checksum := "abc",
    MimeType := "text/plain", Parents := some ["C"] }

/-- The folder index of the three-level example. -/
def wFolders : String → Option DriveFile := remoteFolders [recR, recC]

/-- A file whose first parent id is not a key of `wFolders`. -/
def orphanFile : DriveFile :=
  { Id := "O", Name := "orphan.txt", Md5Checksum := "zzz",
    MimeType := "text/plain", Parents := some ["ghost"] }

/-- A folder that is its own parent: the smallest cyclic ancestry. -/
def cycA : DriveFile :=
  { Id := "A", Name := "a", Md5Checksum := "", MimeType := folderMime,
    Parents := some ["A"] }

/-- The folder index of the cyclic example. -/
def cycFolders : String → Option DriveFile := remoteFolders [cycA]

/-- A record whose `Parents` slice is present but holds zero entries. -/
def emptyParentsFile : DriveFile :=
  { Id := "N", Name := "doc", Md5Checksum := "", MimeType := "text/plain",
    Parents := some [] }

/-- Two remote files with distinct non-empty checksums, both absent from an
empty local half: two qualifying missing files. -/
def c1RemoteA : DriveFile :=
  { Id := "f1", Name := "a.txt", Md5Checksum := "aaa",
    MimeType := "text/plain", Parents := none }

/-- The second of the two missing remote files of the C1 input. -/
def c1RemoteB : DriveFile :=
  { Id := "f2", Name := "b.txt", Md5Checksum := "bbb",
    MimeType := "text/plain", Parents := none }

/-- A persisted document whose remote half is `null` and whose local half
is the empty array: both halves empty, the document well-formed. -/
def emptyHalvesJson : Json :=
  Json.obj [("Remote", Json.null), ("Local", Json.arr [])]

/-- A persisted document whose remote half is a string: well-formed JSON
text whose remote half does not fit the schema (a malformed half). -/
def malformedJson : Json :=
  Json.obj [("Remote", Json.str "corrupt")]

/-- C1: the reconcile loop `break`s right after the first download, so on a
snapshot with two qualifying records (non-empty checksums `aaa`, `bbb`,
empty local half) the code downloads only `f1`, while §4.4's `findMissing`
lists both `f1` and `f2`; the claim that the Fetch Executor runs once per
missing file with none skipped is what the code's own closing message
(`Those remote files above don't exist local.`) and its commented-out
alternative `break` describe, so the stray `break` is the slip. -/
theorem main_fetch_only_first :
    downloadTargets [] [c1RemoteA, c1RemoteB] = ["f1"] ∧
    missingIdsSpec [] [c1RemoteA, c1RemoteB] = ["f1", "f2"] := by decide

/-- C3 (amended): for every folder index and every file record whose
`Parents` slice is absent (nil), `remotePath` returns exactly `"/" + name`
on any positive fuel, with no error outcome. -/
theorem remotePath_nil_parents (folders : String → Option DriveFile)
    (file : DriveFile) (n : Nat) (h : file.Parents = none) :
    remotePath folders (n + 1) file = some (PathOutcome.ok ("/" ++ file.Name)) := by
  simp [remotePath, remotePathLoop, h, String.append_empty]

/-- C3 witness: the no-parent record `recR` resolves to `/root` at fuel 1. -/
theorem remotePath_nil_parents_witness :
    remotePath wFolders 1 recR = some (PathOutcome.ok "/root") :=
  remotePath_nil_parents wFolders recR 0 rfl

/-- C3 counterexample: a record whose `Parents` slice is present with zero
entries does not yield `"/" + name` — the loop indexes `f.Parents[0]` on an
empty slice and panics (index out of range), so the claim's
no-error-outcome half is false for this input. -/
theorem remotePath_empty_parents_cex :
    remotePath (fun _ => none) 1 emptyParentsFile = some PathOutcome.crash ∧
    remotePath (fun _ => none) 1 emptyParentsFile ≠
      some (PathOutcome.ok ("/" ++ "doc")) := by decide

/-- C5 (amended): on a persisted file that exists and parses with a half
that is empty (`null` or `[]` or missing), that half is indistinguishable
from not-yet-populated and is fully re-fetched/re-scanned; but a half that
is malformed (does not unmarshal) aborts the run via `log.Fatalf` instead
of triggering a re-fetch. -/
theorem cache_empty_halves_refetch (rs : List DriveFile)
    (ls : List localFile) :
    runPopulate (CacheFile.valid emptyHalvesJson) rs ls =
      some { files := { Remote := rs, Local := ls }, remoteFetched := true,
             localScanned := true } ∧
    runPopulate (CacheFile.valid malformedJson) rs ls = none :=
  ⟨rfl, rfl⟩

/-- C5 counterexample: with the persisted file present but its remote half
malformed (a string where a list belongs), the load is fatal — the run dies
rather than re-fetching that half, contradicting the claim's
`rather than failing`. -/
theorem cache_malformed_fatal_cex :
    runPopulate (CacheFile.valid malformedJson) [c1RemoteA]
      [{ Path := "a.txt", Md5Checksum := "aaa" }] = none := rfl

/-- C6 (amended): the fetch step writes to the destination path joined
under the base directory but creates no parent directories — the write
succeeds exactly when the destination's parent directory already exists. -/
theorem fetchWrite_requires_dir (dirs : List (List String))
    (base rel : List String) :
    fetchWriteOk dirs base rel = true ↔ (base ++ rel).dropLast ∈ dirs := by
  simp [fetchWriteOk, osCreateOk, dirExists, List.elem_iff]

/-- C6 counterexample: with only the base directory existing, fetching a
missing file whose resolved path lies in a subdirectory fails — the code
never creates the absent destination directory, so the write fails merely
because that directory is absent. -/
theorem fetchWrite_no_mkdir_cex :
    fetchWriteOk [["base"]] ["base"] ["sub", "a.txt"] = false := by decide

/-- C8: for every folder index and every file record whose first parent id
is not a key of the index, `remotePath` returns `"/" + name` on any
positive fuel — resolution stops at the unresolvable link rather than
failing. -/
theorem remotePath_unresolvable_parent (folders : String → Option DriveFile)
    (file : DriveFile) (n : Nat) (p : String) (ps : List String)
    (hp : file.Parents = some (p :: ps)) (hf : folders p = none) :
    remotePath folders (n + 1) file = some (PathOutcome.ok ("/" ++ file.Name)) := by
  simp [remotePath, remotePathLoop, hp, hf, String.append_empty]

/-- C8 witness: `orphanFile`'s parent id `ghost` is not in `wFolders`, and
it resolves to `/orphan.txt`. -/
theorem remotePath_unresolvable_parent_witness :
    remotePath wFolders 1 orphanFile = some (PathOutcome.ok "/orphan.txt") :=
  remotePath_unresolvable_parent wFolders orphanFile 0 "ghost" [] rfl rfl

/-- C9: the populate phase re-fetches the remote half exactly when the
loaded remote half is empty and re-runs the local scan exactly when the
loaded local half is empty; a non-empty half is passed through untouched
and its source is not consulted. -/
theorem populate_halves_iff_empty (loaded : Files) (rs : List DriveFile)
    (ls : List localFile) :
    ((populate loaded rs ls).remoteFetched = true ↔ loaded.Remote = []) ∧
    ((populate loaded rs ls).localScanned = true ↔ loaded.Local = []) ∧
    (populate loaded rs ls).files.Remote =
      (if loaded.Remote.isEmpty then rs else loaded.Remote) ∧
    (populate loaded rs ls).files.Local =
      (if loaded.Local.isEmpty then ls else loaded.Local) := by
  obtain ⟨lr, ll⟩ := loaded
  cases lr <;> cases ll <;> simp [populate]

/-- Lookup in the map grown by the `remoteFolders` fold from an arbitrary
starting map: the last-inserted folder record with the looked-up id wins,
and the starting map answers when no folder record carries the id. -/
theorem remoteFolders_foldl (l : List DriveFile)
    (acc : String → Option DriveFile) (id : String) :
    (l.foldl
      (fun folders file =>
        if file.MimeType = folderMime then
          fun i => if i = file.Id then some file else folders i
        else folders) acc) id =
      (((l.filter (fun f => f.MimeType == folderMime)).reverse).find?
        (fun f => f.Id == id)).or (acc id) := by
  induction l generalizing acc with
  | nil => simp
  | cons f rest ih =>
    simp only [List.foldl_cons]
    rw [ih]
    by_cases hm : f.MimeType = folderMime
    · simp only [List.filter_cons, hm, beq_self_eq_true, if_pos, List.reverse_cons,
        List.find?_append]
      cases hfind : ((rest.filter (fun g => g.MimeType == folderMime)).reverse).find?
          (fun g => g.Id == id) with
      | some g => simp [Option.or]
      | none =>
        simp only [Option.or, hm, if_pos]
        by_cases hid : id = f.Id
        · simp [List.find?, hid]
        · have hne : (f.Id == id) = false := by
            simp only [beq_eq_false_iff_ne]
            exact fun e => hid e.symm
          simp [List.find?, hne, hid]
    · have hm2 : (f.MimeType == folderMime) = false := by
        simp only [beq_eq_false_iff_ne]; exact hm
      simp [List.filter_cons, hm2, hm]

/-- C7: `remoteFolders` is exactly the id-keyed mapping of the FOLDER-mime
records of the remote listing — it coincides with the spec-side
`folderIndexSpec`, its lookup hits exactly the ids carried by some folder
record (no extras, no omissions, no filtering on parent validity), and the
empty listing yields the empty index. -/
theorem remoteFolders_exactly_folders (remote : List DriveFile) (id : String) :
    remoteFolders remote id = folderIndexSpec remote id ∧
    ((remoteFolders remote id).isSome ↔
      ∃ f ∈ remote, f.MimeType = folderMime ∧ f.Id = id) ∧
    remoteFolders [] id = none := by
  have h := remoteFolders_foldl remote (fun _ => none) id
  have heq : remoteFolders remote id = folderIndexSpec remote id := by
    rw [remoteFolders, h, folderIndexSpec]
    cases ((remote.filter (fun f => f.MimeType == folderMime)).reverse).find?
        (fun f => f.Id == id) <;> simp [Option.or]
  refine ⟨heq, ?_, rfl⟩
  rw [heq, folderIndexSpec]
  cases hfind : ((remote.filter (fun f => f.MimeType == folderMime)).reverse).find?
      (fun f => f.Id == id) with
  | some g =>
    simp only [hfind, Option.isSome_some, true_iff]
    have hg1 := List.find?_some hfind
    have hg2 := List.mem_of_find?_eq_some hfind
    rw [List.mem_reverse, List.mem_filter] at hg2
    exact ⟨g, hg2.1, by simpa using hg2.2, by simpa using hg1⟩
  | none =>
    simp only [hfind, Option.isSome_none, Bool.false_eq_true, false_iff]
    rintro ⟨f, hf, hmime, hid2⟩
    have hall := List.find?_eq_none.mp hfind
    have hfmem : f ∈ (remote.filter (fun g => g.MimeType == folderMime)).reverse := by
      rw [List.mem_reverse, List.mem_filter]
      exact ⟨hf, by simp [hmime]⟩
    have := hall f hfmem
    simp [hid2] at this

/-- C2 (amended): `remotePath` terminates — some fuel makes the loop
finish — for every folder index and every file record whose parent-walk
successor relation is well-founded below the record, i.e. whose ancestry
chain reaches no cycle; the unguarded loop does not terminate on cyclic
ancestry (see the counterexample). -/
theorem remotePath_terminates_of_acc (folders : String → Option DriveFile)
    (file : DriveFile)
    (hacc : Acc (fun d f => nextRec folders f = some d) file) :
    ∃ n, (remotePath folders n file).isSome = true := by
  have h2 : ∀ path, ∃ n, (remotePathLoop folders n file path).isSome = true := by
    induction hacc with
    | intro x hx ih =>
      intro path
      cases hp : x.Parents with
      | none => exact ⟨1, by simp [remotePathLoop, hp]⟩
      | some l =>
        cases l with
        | nil => exact ⟨1, by simp [remotePathLoop, hp]⟩
        | cons p ps =>
          cases hf : folders p with
          | none => exact ⟨1, by simp [remotePathLoop, hp, hf]⟩
          | some d =>
            have hR : nextRec folders x = some d := by
              simp [nextRec, hp, hf]
            obtain ⟨n, hn⟩ := ih d hR ("/" ++ x.Name ++ path)
            exact ⟨n + 1, by simpa [remotePathLoop, hp, hf] using hn⟩
  exact h2 ""

/-- C2 witness: on the acyclic three-level example the walk from `wFile`
is accessible, so the resolution terminates. -/
theorem remotePath_terminates_witness :
    ∃ n, (remotePath wFolders n wFile).isSome = true := by
  have accR : Acc (fun d f => nextRec wFolders f = some d) recR := by
    refine Acc.intro _ (fun y hy => ?_)
    have h0 : nextRec wFolders recR = none := rfl
    rw [h0] at hy
    exact absurd hy (by simp)
  have accC : Acc (fun d f => nextRec wFolders f = some d) recC := by
    refine Acc.intro _ (fun y hy => ?_)
    have h0 : nextRec wFolders recC = some recR := rfl
    rw [h0] at hy
    injection hy with h1
    rw [← h1]
    exact accR
  have accF : Acc (fun d f => nextRec wFolders f = some d) wFile := by
    refine Acc.intro _ (fun y hy => ?_)
    have h0 : nextRec wFolders wFile = some recC := rfl
    rw [h0] at hy
    injection hy with h1
    rw [← h1]
    exact accC
  exact remotePath_terminates_of_acc wFolders wFile accF

/-- On the self-parent folder `cycA`, every iteration of the loop looks its
own id up successfully and continues, so no amount of fuel finishes the
loop, whatever path has accumulated. -/
theorem cyc_loop_none : ∀ (n : Nat) (path : String),
    remotePathLoop cycFolders n cycA path = none := by
  intro n
  induction n with
  | zero => intro path; rfl
  | succ n ih =>
    intro path
    have h1 : cycA.Parents = some ["A"] := rfl
    have h2 : cycFolders "A" = some cycA := rfl
    simp only [remotePathLoop, h1, h2]
    exact ih _

/-- C2 counterexample: on the cyclic input — the folder `A` whose parent
chain reaches back to `A` — `remotePath` does not terminate: the loop is
still running after every amount of fuel, refuting the claim that the
resolution terminates for cyclic parent references too. -/
theorem remotePath_cycle_not_terminating :
    ¬ ∃ n, (remotePath cycFolders n cycA).isSome = true := by
  rintro ⟨n, hn⟩
  rw [remotePath, cyc_loop_none n ""] at hn
  simp at hn

/-- Whatever fuel and start path, a normally finished `remotePath` loop
produced exactly the visit list's segments prepended, in visit order, to
the start path. -/
theorem remotePathLoop_ok_shape (folders : String → Option DriveFile) :
    ∀ (n : Nat) (f : DriveFile) (path s : String),
      remotePathLoop folders n f path = some (PathOutcome.ok s) →
      ∃ names, visitNames folders n f = some names ∧ names ≠ [] ∧
        s = pathOfNames names ++ path := by
  intro n
  induction n with
  | zero =>
    intro f path s h
    exact absurd h (by simp [remotePathLoop])
  | succ n ih =>
    intro f path s h
    cases hp : f.Parents with
    | none =>
      simp only [remotePathLoop, hp, Option.some.injEq, PathOutcome.ok.injEq] at h
      refine ⟨[f.Name], by simp [visitNames, hp], by simp, ?_⟩
      rw [← h]
      simp [pathOfNames, String.empty_append, String.append_assoc]
    | some l =>
      cases l with
      | nil => simp [remotePathLoop, hp] at h
      | cons p ps =>
        cases hf : folders p with
        | none =>
          simp only [remotePathLoop, hp, hf, Option.some.injEq, PathOutcome.ok.injEq] at h
          refine ⟨[f.Name], by simp [visitNames, hp, hf], by simp, ?_⟩
          rw [← h]
          simp [pathOfNames, String.empty_append, String.append_assoc]
        | some d =>
          simp only [remotePathLoop, hp, hf] at h
          obtain ⟨names, hv, hne, hs⟩ := ih d ("/" ++ f.Name ++ path) s h
          refine ⟨f.Name :: names, ?_, by simp, ?_⟩
          · simp [visitNames, hp, hf, hv]
          · rw [hs]
            simp [pathOfNames, String.append_assoc]

/-- A non-empty visit list denotes a path that starts with a slash. -/
theorem pathOfNames_head : ∀ (names : List String), names ≠ [] →
    ∃ t, pathOfNames names = "/" ++ t := by
  intro names
  induction names with
  | nil => intro h; exact absurd rfl h
  | cons nm rest ih =>
    intro _
    cases rest with
    | nil => exact ⟨nm, by simp [pathOfNames, String.empty_append]⟩
    | cons b bs =>
      obtain ⟨t, ht⟩ := ih (by simp)
      refine ⟨t ++ ("/" ++ nm), ?_⟩
      rw [pathOfNames, ht, String.append_assoc]

/-- C10: whenever `remotePath` terminates normally, its result is a
non-empty string that begins with `/` and is exactly the concatenation,
from the outermost resolved ancestor down to the file itself, of `"/"`
followed by each visited record's name — one segment per visited record. -/
theorem remotePath_result_shape (folders : String → Option DriveFile)
    (n : Nat) (file : DriveFile) (s : String)
    (h : remotePath folders n file = some (PathOutcome.ok s)) :
    ∃ names t, visitNames folders n file = some names ∧ names ≠ [] ∧
      s = pathOfNames names ∧ s = "/" ++ t ∧ s ≠ "" := by
  obtain ⟨names, hv, hne, hs⟩ := remotePathLoop_ok_shape folders n file "" s h
  rw [String.append_empty] at hs
  obtain ⟨t, ht⟩ := pathOfNames_head names hne
  have hslash : s = "/" ++ t := by rw [hs, ht]
  refine ⟨names, t, hv, hne, hs, hslash, ?_⟩
  rw [hslash]
  intro hcontra
  have hdata := congrArg String.data hcontra
  rw [String.data_append] at hdata
  simp at hdata

/-- C10 witness: on the three-level example the loop finishes with
`/root/sub/doc.txt`, whose shape the theorem certifies. -/
theorem remotePath_result_shape_witness :
    ∃ names t, visitNames wFolders 3 wFile = some names ∧ names ≠ [] ∧
      "/root/sub/doc.txt" = pathOfNames names ∧
      "/root/sub/doc.txt" = "/" ++ t ∧ ("/root/sub/doc.txt" : String) ≠ "" :=
  remotePath_result_shape wFolders 3 wFile "/root/sub/doc.txt" (by decide)

/-- Decoding an object's field list splits over append: the second part is
processed from the state the first part reached, and an error in the first
part is final. -/
theorem decodeFileLoop_append (acc : DriveFile) (l1 l2 : List (String × Json)) :
    decodeFileLoop acc (l1 ++ l2) =
      match decodeFileLoop acc l1 with
      | some a => decodeFileLoop a l2
      | none => none := by
  induction l1 generalizing acc with
  | nil => simp [decodeFileLoop]
  | cons kv rest ih =>
    obtain ⟨k, v⟩ := kv
    simp only [List.cons_append, decodeFileLoop]
    cases setFileField acc k v with
    | some a2 => simp [ih]
    | none => rfl

/-- A list of strings survives the encode/decode pair for `[]string`. -/
theorem decodeStrList_map (ps : List String) :
    decodeStrList (ps.map Json.str) = some ps := by
  induction ps with
  | nil => rfl
  | cons p rest ih => simp [decodeStrList, ih]

/-- Marshal-then-unmarshal is the identity on every `drive.File` record
whose `Parents` is not the present-but-empty slice: each omitted zero field
reloads as its zero value, and a non-empty parents array reloads verbatim.
(The excluded record is the counterexample: `some []` is serialized as an
omitted field and reloads as `none`.) -/
theorem decode_encode_driveFile (f : DriveFile) (h : f.Parents ≠ some []) :
    decodeDriveFile (encodeDriveFile f) = some f := by
  obtain ⟨i, nm, c, m, pr⟩ := f
  simp only [encodeDriveFile, decodeDriveFile]
  rcases pr with _ | ⟨_ | ⟨p0, prest⟩⟩
  · by_cases hi : i = "" <;> by_cases hc : c = "" <;> by_cases hm : m = "" <;>
      by_cases hn : nm = "" <;>
      simp [decodeFileLoop_append, decodeFileLoop, setFileField, jsonToStr,
        zeroDriveFile, hi, hc, hm, hn]
  · exact absurd rfl h
  · by_cases hi : i = "" <;> by_cases hc : c = "" <;> by_cases hm : m = "" <;>
      by_cases hn : nm = "" <;>
      simp [decodeFileLoop_append, decodeFileLoop, setFileField, jsonToStr,
        jsonToStrList, decodeStrList, decodeStrList_map, zeroDriveFile, hi, hc,
        hm, hn]

/-- Marshal-then-unmarshal is the identity on every `localFile` record —
both fields are always written, empty strings included. -/
theorem decode_encode_localFile (l : localFile) :
    decodeLocalFile (encodeLocalFile l) = some l := by
  obtain ⟨p, c⟩ := l
  simp [encodeLocalFile, decodeLocalFile, decodeLocalLoop, setLocalField,
    jsonToStr, zeroLocalFile]

/-- Element-wise round trip for the remote half. -/
theorem decodeFileList_map (rs : List DriveFile)
    (h : ∀ r ∈ rs, r.Parents ≠ some []) :
    decodeFileList (rs.map encodeDriveFile) = some rs := by
  induction rs with
  | nil => rfl
  | cons r rest ih =>
    have h1 : decodeDriveFile (encodeDriveFile r) = some r :=
      decode_encode_driveFile r (h r (by simp))
    have h2 : decodeFileList (rest.map encodeDriveFile) = some rest :=
      ih (fun x hx => h x (by simp [hx]))
    simp [decodeFileList, h1, h2]

/-- Element-wise round trip for the local half. -/
theorem decodeLocalList_map (ls : List localFile) :
    decodeLocalList (ls.map encodeLocalFile) = some ls := by
  induction ls with
  | nil => rfl
  | cons l rest ih =>
    simp [decodeLocalList, decode_encode_localFile, ih]

/-- C4 (amended): save followed by load reproduces the snapshot
field-for-field — empty-string checksums and absent parent sequences
included — for every snapshot in which no remote record carries a
present-but-empty parents slice; such a slice is serialized as an omitted
field and reloads as absent (the counterexample). -/
theorem readFilesJson_roundtrip (files : Files)
    (h : ∀ r ∈ files.Remote, r.Parents ≠ some []) :
    readFilesJson (CacheFile.valid (writeFilesJson files)) = some files := by
  obtain ⟨rs, ls⟩ := files
  have h1 : jsonToRemote (Json.arr (rs.map encodeDriveFile)) = some (some rs) := by
    simp [jsonToRemote, decodeFileList_map rs h]
  have h2 : jsonToLocal (Json.arr (ls.map encodeLocalFile)) = some (some ls) := by
    simp [jsonToLocal, decodeLocalList_map ls]
  simp [readFilesJson, writeFilesJson, decodeFiles, decodeFilesLoop,
    setFilesField, h1, h2]

/-- C4 witness: a snapshot with a nested file (non-empty parents, empty
checksum on the folder) and one local record reloads exactly. -/
theorem readFilesJson_roundtrip_witness :
    readFilesJson (CacheFile.valid (writeFilesJson
      { Remote := [wFile, recR],
        Local := [{ Path := "a.txt", Md5Checksum := "abc" }] })) =
      some { Remote := [wFile, recR],
             Local := [{ Path := "a.txt", Md5Checksum := "abc" }] } :=
  readFilesJson_roundtrip _ (by decide)

/-- C4 counterexample: a snapshot whose single remote record has a
present-but-empty parents slice does not reload equal to itself — the
omitted `parents` field comes back as the nil slice, so the reloaded
snapshot is distinguishable from the original (the `remotePath` loop even
treats the two differently: nil ends the walk, present-but-empty
panics). -/
theorem roundtrip_empty_parents_cex :
    readFilesJson (CacheFile.valid (writeFilesJson
      { Remote := [emptyParentsFile], Local := [] })) ≠
      some { Remote := [emptyParentsFile], Local := [] } := by decide
